import Mathlib

/-!
Verification of the S3 backup cleaner (`src/lambda_function.py`).

Shallow embedding conventions:
* Timestamps (`LastModified`, `now`) are integers counting seconds in UTC.
  Python `(now - last_modified).days` is floor division of the difference
  by one day, which is `Int.fdiv` here.
* The S3 client is an external collaborator; it is modelled by explicit
  function parameters (`lister`, `backend`, `fetch`) returning
  `Except String _` — a `ClientError` exception is the `.error` case.
* JSON documents produced by `json.loads` are modelled by the `Json`
  inductive; the lexing itself (`json.loads`) is a collaborator parameter
  `jsonParse : String → Except String Json` whose `.error` case is a
  `JSONDecodeError`.
* Python `for` loops with accumulators are modelled by structurally
  identical recursive functions; `enumerate` becomes an explicit index
  argument.
* Functions additionally report how many storage calls they issued, so
  that claims of the form "no backend call is made" are statable; the
  pair/triple components are documented at each definition.
-/

namespace BackupCleaner

/-- One S3 object as returned by the object lister: its key and its
`LastModified` timestamp (seconds, UTC). -/
structure BackupObject where
  key : String
  lastModified : Int
deriving Repr, DecidableEq

/-- Policy record `BackupRetentionPolicy` from the source: folder prefix, age threshold in
days, and the minimum number of newest backups that are always kept.
The numeric fields are Python `int`s, hence `Int`. -/
structure BackupRetentionPolicy where
  folder : String
  days_to_keep : Int
  min_backups_to_keep : Int
deriving Repr, DecidableEq

/-- Source expression `(now - obj[LastModified]).days`: the whole-day floor
of the difference. `Int.fdiv` is floor division, exactly like
`timedelta.days` in Python. -/
def ageDays (now lastModified : Int) : Int :=
  (now - lastModified).fdiv 86400

/-- The comparison used by the `sorted` call keyed on LastModified with
reverse=True: newest first.  `b.lastModified ≤ a.lastModified` makes `a`
come before `b`. -/
def newestFirst (a b : BackupObject) : Bool :=
  b.lastModified ≤ a.lastModified

/-- The `sorted(..., reverse=True)` call from `get_objects_to_delete`.
`List.mergeSort` is a stable sort, like the Python `sorted`. -/
def sortObjects (objects : List BackupObject) : List BackupObject :=
  objects.mergeSort newestFirst

/-- The `for idx, obj in enumerate(sorted_objects)` loop body of
`get_objects_to_delete`: positions below `min_backups_to_keep` are skipped
(kept); afterwards an object is appended to the result iff
`age_days > policy.days_to_keep`. -/
def markDeletions (now : Int) (policy : BackupRetentionPolicy) :
    Nat → List BackupObject → List String
  | _, [] => []
  | idx, obj :: rest =>
    if (idx : Int) < policy.min_backups_to_keep then
      markDeletions now policy (idx + 1) rest
    else if ageDays now obj.lastModified > policy.days_to_keep then
      obj.key :: markDeletions now policy (idx + 1) rest
    else
      markDeletions now policy (idx + 1) rest

/-- Source method `S3BackupCleaner.get_objects_to_delete`: empty input short-circuits to
`[]`; otherwise sort newest-first and run the marking loop from index 0.
`now` (taken from the clock in the source) is an explicit parameter. -/
def get_objects_to_delete (now : Int) (objects : List BackupObject)
    (policy : BackupRetentionPolicy) : List String :=
  if objects.isEmpty then []
  else markDeletions now policy 0 (sortObjects objects)

/-- The age test applied beyond the retained minimum, as a Bool predicate. -/
def staleTest (now : Int) (policy : BackupRetentionPolicy)
    (obj : BackupObject) : Bool :=
  ageDays now obj.lastModified > policy.days_to_keep

theorem markDeletions_eq_filter (now : Int) (policy : BackupRetentionPolicy) :
    ∀ (l : List BackupObject) (idx : Nat),
      markDeletions now policy idx l =
        ((l.drop (policy.min_backups_to_keep.toNat - idx)).filter
          (staleTest now policy)).map BackupObject.key
  | [], idx => by simp [markDeletions]
  | obj :: rest, idx => by
    by_cases h : (idx : Int) < policy.min_backups_to_keep
    · have hstep : policy.min_backups_to_keep.toNat - idx =
          (policy.min_backups_to_keep.toNat - (idx + 1)) + 1 := by omega
      rw [markDeletions, if_pos h,
        markDeletions_eq_filter now policy rest (idx + 1), hstep,
        List.drop_succ_cons]
    · have h0 : policy.min_backups_to_keep.toNat - idx = 0 := by omega
      have h1 : policy.min_backups_to_keep.toNat - (idx + 1) = 0 := by omega
      rw [markDeletions, if_neg h,
        markDeletions_eq_filter now policy rest (idx + 1)] at *
      by_cases hage : ageDays now obj.lastModified > policy.days_to_keep
      · simp [hage, h0, h1, List.filter_cons, staleTest,
          markDeletions_eq_filter now policy rest (idx + 1)]
      · simp [hage, h0, h1, List.filter_cons, staleTest,
          markDeletions_eq_filter now policy rest (idx + 1)]

/-- Closed form of the evaluator: drop the retained minimum from the sorted
list, keep the stale ones, return their keys. -/
theorem get_objects_to_delete_eq (now : Int) (objects : List BackupObject)
    (policy : BackupRetentionPolicy) :
    get_objects_to_delete now objects policy =
      (((sortObjects objects).drop policy.min_backups_to_keep.toNat).filter
        (staleTest now policy)).map BackupObject.key := by
  rw [get_objects_to_delete]
  by_cases h : objects.isEmpty
  · have : objects = [] := List.isEmpty_iff.mp h
    subst this
    simp [sortObjects, List.mergeSort]
  · rw [if_neg h, markDeletions_eq_filter]
    simp

theorem newestFirst_trans (a b c : BackupObject) :
    newestFirst a b → newestFirst b c → newestFirst a c := by
  simp only [newestFirst, decide_eq_true_eq]
  omega

theorem newestFirst_total (a b : BackupObject) :
    newestFirst a b || newestFirst b a := by
  simp only [newestFirst, Bool.or_eq_true, decide_eq_true_eq]
  omega

theorem sortObjects_perm (objects : List BackupObject) :
    (sortObjects objects).Perm objects :=
  List.mergeSort_perm objects newestFirst

theorem sortObjects_pairwise (objects : List BackupObject) :
    (sortObjects objects).Pairwise fun a b => b.lastModified ≤ a.lastModified :=
  (List.sorted_mergeSort newestFirst_trans newestFirst_total objects).imp
    (fun hab => by simpa [newestFirst] using hab)

theorem sortObjects_key_nodup (objects : List BackupObject)
    (hkeys : (objects.map BackupObject.key).Nodup) :
    ((sortObjects objects).map BackupObject.key).Nodup :=
  (((sortObjects_perm objects).map BackupObject.key).nodup_iff).mpr hkeys

theorem sortObjects_eq_of_sorted (objects : List BackupObject)
    (h : objects.Pairwise fun a b => newestFirst a b) :
    sortObjects objects = objects :=
  List.mergeSort_of_sorted h

/-- C1. The evaluator never marks for deletion any of the
`min(min_backups_to_keep, N)` most-recently-modified objects: the sort is
newest-first (first two conjuncts make "most recent" precise — the sorted
list is a permutation of the input, descending in `lastModified`), no key
of the first `min_backups_to_keep.toNat` sorted objects is ever in the
output, and when `min_backups_to_keep ≥ N` the output is empty. Keys are
assumed pairwise distinct, as S3 keys within one bucket are. -/
theorem evaluator_never_deletes_min_recent (now : Int)
    (objects : List BackupObject) (policy : BackupRetentionPolicy)
    (hkeys : (objects.map BackupObject.key).Nodup) :
    ((sortObjects objects).Pairwise fun a b => b.lastModified ≤ a.lastModified)
    ∧ (sortObjects objects).Perm objects
    ∧ (∀ obj ∈ (sortObjects objects).take policy.min_backups_to_keep.toNat,
        obj.key ∉ get_objects_to_delete now objects policy)
    ∧ ((objects.length : Int) ≤ policy.min_backups_to_keep →
        get_objects_to_delete now objects policy = []) := by
  refine ⟨sortObjects_pairwise objects, sortObjects_perm objects, ?_, ?_⟩
  · intro obj hmem hdel
    rw [get_objects_to_delete_eq] at hdel
    obtain ⟨o2, ho2, hkey⟩ := List.mem_map.mp hdel
    have ho2drop : o2 ∈ (sortObjects objects).drop
        policy.min_backups_to_keep.toNat := List.mem_of_mem_filter ho2
    have hnd : ((sortObjects objects).map BackupObject.key).Nodup :=
      sortObjects_key_nodup objects hkeys
    rw [← List.take_append_drop policy.min_backups_to_keep.toNat
      (sortObjects objects), List.map_append] at hnd
    have hdisj := List.disjoint_of_nodup_append hnd
    exact hdisj (List.mem_map_of_mem BackupObject.key hmem)
      (hkey ▸ List.mem_map_of_mem BackupObject.key ho2drop)
  · intro h
    rw [get_objects_to_delete_eq]
    have hnil : (sortObjects objects).drop policy.min_backups_to_keep.toNat
        = [] := by
      apply List.drop_eq_nil_of_le
      simp only [sortObjects, List.length_mergeSort]
      omega
    simp [hnil]

theorem evaluator_never_deletes_min_recent_witness :
    (⟨"a", 86400⟩ : BackupObject).key ∉
      get_objects_to_delete 4320000
        [⟨"a", 86400⟩, ⟨"b", 0⟩] ⟨"f", 0, 1⟩ :=
  (evaluator_never_deletes_min_recent 4320000
      [⟨"a", 86400⟩, ⟨"b", 0⟩] ⟨"f", 0, 1⟩ (by decide)).2.2.1
    ⟨"a", 86400⟩
    (by
      rw [sortObjects_eq_of_sorted [⟨"a", 86400⟩, ⟨"b", 0⟩] (by decide)]
      decide)

/-- C2. Beyond the retained minimum (sorted position
`idx ≥ min_backups_to_keep`), the key of an object is in the output iff
`age_days > days_to_keep`, where `age_days = ageDays` is the whole-day
floor of `now - lastModified`; in particular on the boundary
`age_days = days_to_keep` the object is retained. -/
theorem evaluator_age_rule (now : Int) (objects : List BackupObject)
    (policy : BackupRetentionPolicy)
    (hkeys : (objects.map BackupObject.key).Nodup)
    (idx : Nat) (hidx : idx < (sortObjects objects).length)
    (hmin : policy.min_backups_to_keep ≤ (idx : Int)) :
    ((sortObjects objects).get ⟨idx, hidx⟩).key ∈
        get_objects_to_delete now objects policy
      ↔ ageDays now ((sortObjects objects).get ⟨idx, hidx⟩).lastModified >
          policy.days_to_keep := by
  have hk : policy.min_backups_to_keep.toNat ≤ idx := by omega
  rw [get_objects_to_delete_eq]
  constructor
  · intro h
    obtain ⟨o2, ho2, hkey⟩ := List.mem_map.mp h
    have ho2s : o2 ∈ sortObjects objects :=
      List.mem_of_mem_drop (List.mem_of_mem_filter ho2)
    have hos : (sortObjects objects).get ⟨idx, hidx⟩ ∈ sortObjects objects :=
      (sortObjects objects).get_mem idx hidx
    have heq : o2 = (sortObjects objects).get ⟨idx, hidx⟩ :=
      List.inj_on_of_nodup_map (sortObjects_key_nodup objects hkeys)
        ho2s hos hkey
    have hst := (List.mem_filter.mp ho2).2
    rw [heq] at hst
    simpa [staleTest] using hst
  · intro h
    apply List.mem_map.mpr
    refine ⟨(sortObjects objects).get ⟨idx, hidx⟩, ?_, rfl⟩
    apply List.mem_filter.mpr
    constructor
    · have hlt : idx - policy.min_backups_to_keep.toNat <
          ((sortObjects objects).drop policy.min_backups_to_keep.toNat).length := by
        simp only [List.length_drop]
        omega
      have hgot : ((sortObjects objects).drop
            policy.min_backups_to_keep.toNat)[idx - policy.min_backups_to_keep.toNat] =
          (sortObjects objects).get ⟨idx, hidx⟩ := by
        rw [List.getElem_drop]
        simp only [List.get_eq_getElem]
        congr 1
        omega
      rw [← hgot]
      exact List.getElem_mem hlt
    · simpa [staleTest] using h

theorem evaluator_age_rule_witness :
    ((sortObjects [⟨"b", 0⟩]).get
        ⟨0, by
          rw [sortObjects_eq_of_sorted [⟨"b", 0⟩] (by decide)]
          decide⟩).key ∈
      get_objects_to_delete 4320000 [⟨"b", 0⟩] ⟨"f", 0, 0⟩ :=
  (evaluator_age_rule 4320000 [⟨"b", 0⟩] ⟨"f", 0, 0⟩
      (by decide) 0
      (by
        rw [sortObjects_eq_of_sorted [⟨"b", 0⟩] (by decide)]
        decide)
      (by decide)).mpr
    (by
      have hs : sortObjects [⟨"b", 0⟩] = [⟨"b", 0⟩] :=
        sortObjects_eq_of_sorted [⟨"b", 0⟩] (by decide)
      simp only [hs, List.get_eq_getElem, List.getElem_cons_zero]
      decide)

/-- C10. Every key the evaluator returns is the key of some input
object, and the number of returned keys is at most
`max 0 (N - min_backups_to_keep)`. -/
theorem evaluator_output_within_input (now : Int)
    (objects : List BackupObject) (policy : BackupRetentionPolicy) :
    (∀ k ∈ get_objects_to_delete now objects policy,
        k ∈ objects.map BackupObject.key)
    ∧ ((get_objects_to_delete now objects policy).length : Int) ≤
        max 0 ((objects.length : Int) - policy.min_backups_to_keep) := by
  constructor
  · intro k hk
    rw [get_objects_to_delete_eq] at hk
    obtain ⟨o, ho, hkey⟩ := List.mem_map.mp hk
    have hos : o ∈ objects :=
      ((sortObjects_perm objects).mem_iff).mp
        (List.mem_of_mem_drop (List.mem_of_mem_filter ho))
    exact hkey ▸ List.mem_map_of_mem BackupObject.key hos
  · have hlen : (get_objects_to_delete now objects policy).length ≤
        objects.length - policy.min_backups_to_keep.toNat := by
      rw [get_objects_to_delete_eq, List.length_map]
      calc (((sortObjects objects).drop policy.min_backups_to_keep.toNat).filter
              (staleTest now policy)).length
          ≤ ((sortObjects objects).drop policy.min_backups_to_keep.toNat).length :=
            List.length_filter_le _ _
        _ = objects.length - policy.min_backups_to_keep.toNat := by
            simp [sortObjects, List.length_drop]
    omega

theorem evaluator_output_within_input_witness :
    ("b" ∈ ([⟨"a", 86400⟩, ⟨"b", 0⟩] : List BackupObject).map
        BackupObject.key)
    ∧ ((get_objects_to_delete 4320000
          [⟨"a", 86400⟩, ⟨"b", 0⟩] ⟨"f", 0, 0⟩).length : Int) ≤
        max 0 ((([⟨"a", 86400⟩, ⟨"b", 0⟩] : List BackupObject).length : Int) -
          (⟨"f", 0, 0⟩ : BackupRetentionPolicy).min_backups_to_keep) :=
  ⟨(evaluator_output_within_input 4320000
      [⟨"a", 86400⟩, ⟨"b", 0⟩] ⟨"f", 0, 0⟩).1 "b"
      (by
        rw [get_objects_to_delete_eq,
          sortObjects_eq_of_sorted [⟨"a", 86400⟩, ⟨"b", 0⟩] (by decide)]
        decide),
   (evaluator_output_within_input 4320000
      [⟨"a", 86400⟩, ⟨"b", 0⟩] ⟨"f", 0, 0⟩).2⟩

/-- One response of `s3_client.delete_objects`: the `Deleted` entries (their
keys) and the `Errors` entries (`Key`, `Code`, `Message`). An absent
`Deleted` or `Errors` field in the real response is the empty list, which
is count-equivalent since the source only takes `len` of each. -/
structure DeleteResponse where
  deleted : List String
  errors : List (String × String × String)
deriving Repr, DecidableEq

/-- Outcome of one `s3_client.delete_objects` call: a response, or a
`ClientError` raised by the call. -/
inductive BatchOutcome where
  | ok (resp : DeleteResponse)
  | clientError (msg : String)
deriving Repr, DecidableEq

/-- Constant `batch_size = 1000` from the source (the S3 per-call limit). -/
def batch_size : Nat := 1000

/-- The `for i in range(0, len(keys), batch_size)` loop of
`S3BackupCleaner.delete_objects`. Each iteration takes the next slice
`keys[i:i+batch_size]`, issues one backend call, and accumulates
`(successful, failed)`; on a `ClientError` the whole batch is added to
`failed`. The third component counts the backend calls issued. The
backend is indexed by call number, so any mixed sequence of responses and
call failures is expressible. -/
def deleteChunks (backend : Nat → BatchOutcome) (callIdx : Nat)
    (keys : List String) : Nat × Nat × Nat :=
  match keys with
  | [] => (0, 0, 0)
  | k :: ks =>
    let batch := (k :: ks).take batch_size
    let contrib : Nat × Nat :=
      match backend callIdx with
      | .ok resp => (resp.deleted.length, resp.errors.length)
      | .clientError _ => (0, batch.length)
    let restTotals := deleteChunks backend (callIdx + 1) ((k :: ks).drop batch_size)
    (contrib.1 + restTotals.1, contrib.2 + restTotals.2.1, 1 + restTotals.2.2)
termination_by keys.length
decreasing_by
  simp [batch_size]
  omega

/-- Source method `S3BackupCleaner.delete_objects`: empty input returns `(0, 0)` before
the loop; otherwise the loop runs from the first batch. -/
def delete_objects (backend : Nat → BatchOutcome) (keys : List String) :
    Nat × Nat :=
  if keys.isEmpty then (0, 0)
  else ((deleteChunks backend 0 keys).1, (deleteChunks backend 0 keys).2.1)

/-- Number of `s3_client.delete_objects` calls issued by `delete_objects`:
zero on the empty-input early return, else one per loop iteration. -/
def delete_objects_callCount (backend : Nat → BatchOutcome)
    (keys : List String) : Nat :=
  if keys.isEmpty then 0 else (deleteChunks backend 0 keys).2.2

/-- The consecutive slices `keys[i:i+batch_size]` the loop iterates over. -/
def chunkList (keys : List String) : List (List String) :=
  match keys with
  | [] => []
  | k :: ks => ((k :: ks).take batch_size) :: chunkList ((k :: ks).drop batch_size)
termination_by keys.length
decreasing_by
  simp [batch_size]
  omega

theorem chunkList_flatten : ∀ keys : List String, (chunkList keys).flatten = keys
  | [] => by simp [chunkList]
  | k :: ks => by
    rw [chunkList]
    simp only [List.flatten_cons, chunkList_flatten ((k :: ks).drop batch_size)]
    exact List.take_append_drop batch_size (k :: ks)
termination_by keys => keys.length
decreasing_by
  simp [batch_size]
  omega

theorem chunkList_short (keys : List String) (h0 : keys ≠ [])
    (hlen : keys.length ≤ batch_size) : chunkList keys = [keys] := by
  match keys with
  | [] => exact absurd rfl h0
  | k :: ks =>
    rw [chunkList, List.take_of_length_le hlen, List.drop_eq_nil_of_le hlen]
    simp [chunkList]

/-- Per-chunk accounting of the deletion loop: the loop result is the sum,
over the enumerated chunks, of the contribution of each chunk, and one call per
chunk is issued. -/
theorem deleteChunks_eq_enumFrom (backend : Nat → BatchOutcome) :
    ∀ (keys : List String) (callIdx : Nat),
      deleteChunks backend callIdx keys =
        ((((chunkList keys).enumFrom callIdx).map fun ic =>
            match backend ic.1 with
            | .ok resp => resp.deleted.length
            | .clientError _ => 0).sum,
         (((chunkList keys).enumFrom callIdx).map fun ic =>
            match backend ic.1 with
            | .ok resp => resp.errors.length
            | .clientError _ => ic.2.length).sum,
         (chunkList keys).length)
  | [], callIdx => by simp [deleteChunks, chunkList]
  | k :: ks, callIdx => by
    rw [deleteChunks, chunkList]
    simp only [List.enumFrom_cons, List.map_cons, List.sum_cons,
      List.length_cons,
      deleteChunks_eq_enumFrom backend ((k :: ks).drop batch_size) (callIdx + 1)]
    cases backend callIdx <;> simp [Nat.add_comm]
termination_by keys => keys.length
decreasing_by
  simp [batch_size]
  omega

theorem sum_map_add_eq {α : Type} (f g : α → Nat) :
    ∀ l : List α, (l.map f).sum + (l.map g).sum =
      (l.map fun a => f a + g a).sum
  | [] => rfl
  | a :: l => by
    simp only [List.map_cons, List.sum_cons, ← sum_map_add_eq f g l]
    omega

/-- C6. Chunk-level accounting of `delete_objects`: the successful
count sums, over every enumerated chunk, the backend `Deleted` count
(0 for a failed call); the failed count sums the backend `Errors` count,
except that a whole-chunk `ClientError` contributes the entire length of the
chunk; exactly one call is issued per chunk, so later chunks are still
processed after a failed call; and the chunks partition the input keys. -/
theorem delete_objects_chunk_accounting (backend : Nat → BatchOutcome)
    (keys : List String) :
    (delete_objects backend keys).1 =
        (((chunkList keys).enum.map fun ic =>
          match backend ic.1 with
          | .ok resp => resp.deleted.length
          | .clientError _ => 0).sum)
    ∧ (delete_objects backend keys).2 =
        (((chunkList keys).enum.map fun ic =>
          match backend ic.1 with
          | .ok resp => resp.errors.length
          | .clientError _ => ic.2.length).sum)
    ∧ delete_objects_callCount backend keys = (chunkList keys).length
    ∧ (chunkList keys).flatten = keys := by
  match keys with
  | [] =>
    refine ⟨?_, ?_, ?_, ?_⟩ <;>
      simp [delete_objects, delete_objects_callCount, chunkList]
  | k :: ks =>
    have hne : ((k :: ks).isEmpty) = false := rfl
    have h := deleteChunks_eq_enumFrom backend (k :: ks) 0
    refine ⟨?_, ?_, ?_, chunkList_flatten (k :: ks)⟩ <;>
      simp [delete_objects, delete_objects_callCount, hne, h, List.enum]

theorem delete_objects_counts_sum_per_chunk (backend : Nat → BatchOutcome)
    (keys : List String) :
    (delete_objects backend keys).1 + (delete_objects backend keys).2 =
      (((chunkList keys).enum.map fun ic =>
        match backend ic.1 with
        | .ok resp => resp.deleted.length + resp.errors.length
        | .clientError _ => ic.2.length).sum) := by
  match keys with
  | [] => simp [delete_objects, chunkList]
  | k :: ks =>
    have hne : ((k :: ks).isEmpty) = false := rfl
    have h := deleteChunks_eq_enumFrom backend (k :: ks) 0
    simp only [delete_objects, hne, Bool.false_eq_true, if_false, h, List.enum]
    rw [sum_map_add_eq]
    apply congrArg
    apply List.map_congr_left
    intro ic _
    cases backend ic.1 <;> simp

/-- C3. Whenever each per-chunk response classifies exactly the keys of
the chunk (every key acknowledged as deleted or as an error — any mix), the
counts returned by `delete_objects` satisfy
`successful + failed = number of input keys`; chunks whose whole call
failed are fully counted as failed, preserving the total. -/
theorem delete_objects_counts_partition (backend : Nat → BatchOutcome)
    (keys : List String)
    (hresp : ∀ ic ∈ (chunkList keys).enum, ∀ resp, backend ic.1 = .ok resp →
        resp.deleted.length + resp.errors.length = ic.2.length) :
    (delete_objects backend keys).1 + (delete_objects backend keys).2 =
      keys.length := by
  rw [delete_objects_counts_sum_per_chunk backend keys]
  have hmap : ((chunkList keys).enum.map fun ic =>
      match backend ic.1 with
      | .ok resp => resp.deleted.length + resp.errors.length
      | .clientError _ => ic.2.length) =
      ((chunkList keys).enum.map fun ic => ic.2.length) := by
    apply List.map_congr_left
    intro ic hic
    cases hb : backend ic.1 with
    | ok resp => exact hresp ic hic resp hb
    | clientError _ => rfl
  rw [hmap]
  have hsnd : ((chunkList keys).enum.map fun ic => ic.2.length) =
      (chunkList keys).map List.length := by
    rw [show ((chunkList keys).enum.map fun ic => ic.2.length) =
        (((chunkList keys).enum.map Prod.snd).map List.length) by
      rw [List.map_map]; rfl]
    rw [List.enum, List.enumFrom_map_snd]
  rw [hsnd, ← List.length_flatten, chunkList_flatten]

theorem delete_objects_counts_partition_witness :
    (delete_objects
        (fun _ => .ok ⟨["k1"], [("k2", "AccessDenied", "Access Denied")]⟩)
        ["k1", "k2"]).1 +
      (delete_objects
        (fun _ => .ok ⟨["k1"], [("k2", "AccessDenied", "Access Denied")]⟩)
        ["k1", "k2"]).2 =
      (["k1", "k2"] : List String).length :=
  delete_objects_counts_partition
    (fun _ => .ok ⟨["k1"], [("k2", "AccessDenied", "Access Denied")]⟩)
    ["k1", "k2"]
    (by
      rw [chunkList_short ["k1", "k2"] (by decide) (by decide)]
      intro ic hic resp h
      simp only [List.enum, List.enumFrom, List.mem_singleton] at hic
      subst hic
      injection h with h2
      subst h2
      decide)

/-- C9. Deleting an empty key list issues no backend call and returns
exactly `(0, 0)`, for every backend. -/
theorem delete_objects_empty_input (backend : Nat → BatchOutcome) :
    delete_objects backend [] = (0, 0)
    ∧ delete_objects_callCount backend [] = 0 := by
  constructor <;> simp [delete_objects, delete_objects_callCount]

/-- Minimal model of a parsed JSON document (the output of `json.loads`).
Object fields form an association list with distinct keys, as a JSON
parser produces. -/
inductive Json where
  | null
  | bool (b : Bool)
  | num (n : Int)
  | str (s : String)
  | arr (items : List Json)
  | obj (fields : List (String × Json))

/-- Python dict lookup on a parsed JSON object. -/
def lookupField : List (String × Json) → String → Option Json
  | [], _ => none
  | (k, v) :: rest, key => if k = key then some v else lookupField rest key

/-- Model of `policy_config.get(name, default)` for the two integer fields. A
present but wrongly-typed value is an error here; Python would store it
and fail later at the comparison site — no claim exercises that case. -/
def intField (fields : List (String × Json)) (name : String)
    (dflt : Int) : Except String Int :=
  match lookupField fields name with
  | none => .ok dflt
  | some (.num n) => .ok n
  | some _ => .error ("TypeError: " ++ name ++ " is not an integer")

/-- One element of the `retention_policies` array in
`load_retention_config`: `policy_config[folder]` (required — `KeyError`
when absent), `policy_config.get(days_to_keep, 30)`,
`policy_config.get(min_backups_to_keep, 3)`. Subscripting a non-object
record raises in Python (`TypeError`); a non-string folder is modelled as
an error (Python would store it and fail at the listing call) — no claim
exercises it. -/
def parsePolicy (item : Json) : Except String BackupRetentionPolicy :=
  match item with
  | .obj fields =>
    match lookupField fields "folder" with
    | none => .error "KeyError: folder"
    | some (.str folder) =>
      match intField fields "days_to_keep" 30 with
      | .error e => .error e
      | .ok days =>
        match intField fields "min_backups_to_keep" 3 with
        | .error e => .error e
        | .ok minKeep => .ok ⟨folder, days, minKeep⟩
    | some _ => .error "TypeError: folder is not a string"
  | _ => .error "TypeError: policy record is not an object"

/-- The `for policy_config in config_data[retention_policies]` loop:
first failure propagates as the raised exception. -/
def parsePolicies : List Json → Except String (List BackupRetentionPolicy)
  | [] => .ok []
  | item :: rest =>
    match parsePolicy item with
    | .error e => .error e
    | .ok p =>
      match parsePolicies rest with
      | .error e => .error e
      | .ok ps => .ok (p :: ps)

/-- Membership test `retention_policies in config_data` and the policy loop of
`load_retention_config`: a missing key yields zero policies (not an
error). A non-object document raises in Python at the membership test or
subscript — modelled as an error; the corners where `in` is defined on a
non-dict (arrays, strings) are exercised by no claim. -/
def policiesOfDoc (doc : Json) : Except String (List BackupRetentionPolicy) :=
  match doc with
  | .obj fields =>
    match lookupField fields "retention_policies" with
    | none => .ok []
    | some (.arr items) => parsePolicies items
    | some _ => .error "TypeError: retention_policies is not a list"
  | _ => .error "TypeError: config document is not an object"

/-- The split of `config_source[5:]` at the first slash (maxsplit 1), for
an `s3://` pointer:
bucket is everything before the first slash; the key is the remainder, or
`config.json` when there is no slash. -/
def parseS3Path (config_source : String) : String × String :=
  let rest := config_source.drop 5
  let bucket := rest.takeWhile (fun c => c ≠ '/')
  if rest.any (fun c => c = '/') then
    (bucket, rest.drop (bucket.length + 1))
  else (bucket, "config.json")

/-- Model of `config_source.startswith(s3://)`, expressed on the character
sequence (`String.startsWith` computes the same test through a byte
position loop that does not reduce in the kernel). -/
def isS3Path (config_source : String) : Bool :=
  config_source.data.take 5 == "s3://".data

/-- Source function `load_retention_config`: resolve the configuration string — fetching
from S3 when it is an `s3://` pointer, else treating it as literal JSON —
then build the policy list. `fetch bucket key` is `s3_client.get_object`
(its `.error` a `ClientError`), `jsonParse` is `json.loads`. The second
component counts the fetch calls issued (0 or 1). -/
def load_retention_config (fetch : String → String → Except String String)
    (jsonParse : String → Except String Json) (config_source : String) :
    Except String (List BackupRetentionPolicy) × Nat :=
  if isS3Path config_source then
    match fetch (parseS3Path config_source).1 (parseS3Path config_source).2 with
    | .error e => (.error e, 1)
    | .ok body =>
      match jsonParse body with
      | .error e => (.error e, 1)
      | .ok doc => (policiesOfDoc doc, 1)
  else
    match jsonParse config_source with
    | .error e => (.error e, 0)
    | .ok doc => (policiesOfDoc doc, 0)

/-- The success dictionary built by `process_folder`. -/
structure FolderSuccess where
  folder : String
  total_objects : Nat
  objects_to_delete : Nat
  deleted : Nat
  failed : Nat
deriving Repr, DecidableEq

/-- One entry of the handler `results` list: the `process_folder`
dictionary, or the `folder`/`error` dictionary built when processing the
policy raised. -/
inductive FolderResult where
  | ok (r : FolderSuccess)
  | err (folder : String) (error : String)
deriving Repr, DecidableEq

/-- Source method `S3BackupCleaner.process_folder`: list the folder (a raising lister
propagates the exception), evaluate retention, delete, and assemble the
result record. Second component: listing calls issued (always 1 — a call
that raised was still issued); third: deletion calls issued. -/
def process_folder (lister : String → Except String (List BackupObject))
    (backend : Nat → BatchOutcome) (now : Int)
    (policy : BackupRetentionPolicy) :
    Except String FolderSuccess × Nat × Nat :=
  match lister policy.folder with
  | .error e => (.error e, 1, 0)
  | .ok objects =>
    let to_delete := get_objects_to_delete now objects policy
    (.ok ⟨policy.folder, objects.length, to_delete.length,
        (delete_objects backend to_delete).1,
        (delete_objects backend to_delete).2⟩,
     1, delete_objects_callCount backend to_delete)

/-- The `try/except` body of the policy loop of the handler: a successful
result is appended as-is; an exception becomes the error dictionary
carrying the folder of that policy. -/
def folderResultOf (policy : BackupRetentionPolicy)
    (outcome : Except String FolderSuccess) : FolderResult :=
  match outcome with
  | .ok r => .ok r
  | .error e => .err policy.folder e

/-- The `for policy in policies` loop of `lambda_handler`, with its
`results.append(...)` accumulator. -/
def processPolicies
    (proc : BackupRetentionPolicy → Except String FolderSuccess)
    (acc : List FolderResult) :
    List BackupRetentionPolicy → List FolderResult
  | [] => acc
  | p :: rest => processPolicies proc (acc ++ [folderResultOf p (proc p)]) rest

/-- Model of `r.get(deleted, 0)`: error dictionaries have no `deleted` key. -/
def deletedOf : FolderResult → Nat
  | .ok r => r.deleted
  | .err _ _ => 0

/-- Model of `r.get(failed, 0)`: error dictionaries have no `failed` key. -/
def failedOf : FolderResult → Nat
  | .ok r => r.failed
  | .err _ _ => 0

/-- Source line `total_deleted = sum of r.get(deleted, 0) over results`. -/
def total_deleted (results : List FolderResult) : Nat :=
  (results.map deletedOf).sum

/-- Source line `total_failed = sum of r.get(failed, 0) over results`. -/
def total_failed (results : List FolderResult) : Nat :=
  (results.map failedOf).sum

/-- JSON rendering of a folder result inside the response body. -/
def folderResultJson : FolderResult → Json
  | .ok r => .obj [("folder", .str r.folder),
      ("total_objects", .num r.total_objects),
      ("objects_to_delete", .num r.objects_to_delete),
      ("deleted", .num r.deleted), ("failed", .num r.failed)]
  | .err f e => .obj [("folder", .str f), ("error", .str e)]

/-- The handler return value: `statusCode` plus the response body as a
parsed JSON value (`json.dumps` is plumbing and left out). -/
structure LambdaResponse where
  statusCode : Nat
  body : Json

/-- Storage calls issued during one handler run, by kind. -/
structure CallCounts where
  configFetch : Nat
  listing : Nat
  deletion : Nat
deriving Repr, DecidableEq

/-- Model of `if not bucket_name` and `if not retention_config`: an environment
variable is falsy when absent or empty. -/
def envMissing : Option String → Bool
  | none => true
  | some s => s.isEmpty

/-- Source function `lambda_handler`: environment checks (400 responses), configuration
loading (any exception raised there is caught by the outer `except` and
returned as a 500 response), the no-policies 200 response, and the
per-policy loop with the summary 200 response. Collaborators: `fetch` and
`jsonParse` resolve the configuration, `lister` lists one folder,
`backendFor folder` answers the deletion calls of that folder, `now` is the
clock reading. Besides the response, the storage calls issued are
returned. -/
def lambda_handler (env_bucket env_config : Option String)
    (fetch : String → String → Except String String)
    (jsonParse : String → Except String Json)
    (lister : String → Except String (List BackupObject))
    (backendFor : String → Nat → BatchOutcome) (now : Int) :
    LambdaResponse × CallCounts :=
  if envMissing env_bucket then
    (⟨400, .obj [("error",
        .str "BUCKET_NAME environment variable is required")]⟩,
     ⟨0, 0, 0⟩)
  else if envMissing env_config then
    (⟨400, .obj [("error",
        .str "RETENTION_CONFIG environment variable is required")]⟩,
     ⟨0, 0, 0⟩)
  else
    match load_retention_config fetch jsonParse (env_config.getD "") with
    | (.error e, nFetch) =>
      (⟨500, .obj [("error", .str "Internal server error"),
          ("message", .str e)]⟩,
       ⟨nFetch, 0, 0⟩)
    | (.ok [], nFetch) =>
      (⟨200, .obj [("message", .str "No retention policies configured"),
          ("results", .arr [])]⟩,
       ⟨nFetch, 0, 0⟩)
    | (.ok (p :: ps), nFetch) =>
      let results := processPolicies
        (fun policy =>
          (process_folder lister (backendFor policy.folder) now policy).1)
        [] (p :: ps)
      (⟨200, .obj [("message", .str "Backup cleanup completed"),
          ("total_deleted", .num (total_deleted results)),
          ("total_failed", .num (total_failed results)),
          ("results", .arr (results.map folderResultJson))]⟩,
       ⟨nFetch,
        ((p :: ps).map (fun policy =>
          (process_folder lister (backendFor policy.folder) now policy).2.1)).sum,
        ((p :: ps).map (fun policy =>
          (process_folder lister (backendFor policy.folder) now policy).2.2)).sum⟩)

theorem processPolicies_eq_map
    (proc : BackupRetentionPolicy → Except String FolderSuccess) :
    ∀ (l : List BackupRetentionPolicy) (acc : List FolderResult),
      processPolicies proc acc l =
        acc ++ l.map fun p => folderResultOf p (proc p)
  | [], acc => by simp [processPolicies]
  | p :: rest, acc => by
    rw [processPolicies, processPolicies_eq_map proc rest]
    simp

/-- C4. The policy loop records one `FolderResult` per policy in
order: a policy whose processing raises contributes the error record
carrying that folder and message, and every remaining policy is still
processed; the aggregated `total_deleted` and `total_failed` sum exactly
the per-policy counts of the policies that completed without error
(failed policies contribute 0). -/
theorem orchestrator_isolates_folder_failures
    (proc : BackupRetentionPolicy → Except String FolderSuccess)
    (policies : List BackupRetentionPolicy) :
    processPolicies proc [] policies =
        (policies.map fun p =>
          match proc p with
          | .ok r => FolderResult.ok r
          | .error e => FolderResult.err p.folder e)
    ∧ total_deleted (processPolicies proc [] policies) =
        (policies.map fun p =>
          match proc p with
          | .ok r => r.deleted
          | .error _ => 0).sum
    ∧ total_failed (processPolicies proc [] policies) =
        (policies.map fun p =>
          match proc p with
          | .ok r => r.failed
          | .error _ => 0).sum := by
  have hmap : processPolicies proc [] policies =
      (policies.map fun p =>
        match proc p with
        | .ok r => FolderResult.ok r
        | .error e => FolderResult.err p.folder e) := by
    rw [processPolicies_eq_map proc policies []]
    simp only [List.nil_append]
    apply List.map_congr_left
    intro p _
    cases proc p <;> rfl
  refine ⟨hmap, ?_, ?_⟩
  · rw [total_deleted, hmap, List.map_map]
    apply congrArg
    apply List.map_congr_left
    intro p _
    simp only [Function.comp_apply]
    cases hpp : proc p <;> simp [deletedOf]
  · rw [total_failed, hmap, List.map_map]
    apply congrArg
    apply List.map_congr_left
    intro p _
    simp only [Function.comp_apply]
    cases hpp : proc p <;> simp [failedOf]

/-- C7. When `BUCKET_NAME` or `RETENTION_CONFIG` is absent or empty,
the handler returns a 400 response and issues no storage call at all
(no config fetch, no listing, no deletion). -/
theorem handler_missing_env_400 (env_bucket env_config : Option String)
    (fetch : String → String → Except String String)
    (jsonParse : String → Except String Json)
    (lister : String → Except String (List BackupObject))
    (backendFor : String → Nat → BatchOutcome) (now : Int)
    (h : envMissing env_bucket = true ∨ envMissing env_config = true) :
    (lambda_handler env_bucket env_config fetch jsonParse lister backendFor
        now).1.statusCode = 400
    ∧ (lambda_handler env_bucket env_config fetch jsonParse lister backendFor
        now).2 = ⟨0, 0, 0⟩ := by
  rcases h with h | h
  · constructor <;> simp [lambda_handler, h]
  · by_cases hb : envMissing env_bucket
    · constructor <;> simp [lambda_handler, hb]
    · constructor <;> simp [lambda_handler, hb, h]

theorem handler_missing_env_400_witness :
    (lambda_handler none (some "x") (fun _ _ => .error "f")
        (fun _ => .error "p") (fun _ => .ok [])
        (fun _ _ => .ok ⟨[], []⟩) 0).1.statusCode = 400
    ∧ (lambda_handler none (some "x") (fun _ _ => .error "f")
        (fun _ => .error "p") (fun _ => .ok [])
        (fun _ _ => .ok ⟨[], []⟩) 0).2 = ⟨0, 0, 0⟩ :=
  handler_missing_env_400 none (some "x") (fun _ _ => .error "f")
    (fun _ => .error "p") (fun _ => .ok [])
    (fun _ _ => .ok ⟨[], []⟩) 0 (Or.inl rfl)

/-- C5 counterexample. With both environment variables present and a
malformed configuration string (`json.loads` raises), the handler returns
status 500 ("Internal server error") — not the 400 configuration-error
response the claim states: the `json.loads` failure propagates into the
catch-all `except` of the handler, which builds the 500 response. -/
theorem handler_malformed_config_counterexample :
    (lambda_handler (some "bucket") (some "not json")
        (fun _ _ => .error "NoSuchKey")
        (fun _ => .error "Expecting value: line 1 column 1")
        (fun _ => .ok []) (fun _ _ => .ok ⟨[], []⟩) 0).1.statusCode = 500
    ∧ ¬ (lambda_handler (some "bucket") (some "not json")
        (fun _ _ => .error "NoSuchKey")
        (fun _ => .error "Expecting value: line 1 column 1")
        (fun _ => .ok []) (fun _ _ => .ok ⟨[], []⟩) 0).1.statusCode = 400 := by
  constructor
  · rfl
  · intro h
    exact absurd h (by decide)

/-- C5 amended. When loading the retention configuration fails — in
particular on a malformed JSON configuration string, or on a policy
record missing its required `folder` field — the handler returns a 500
"Internal server error" response carrying the error message (not a 400),
and it aborts before any listing or deletion call is issued. -/
theorem handler_config_error_500 (env_bucket env_config : Option String)
    (fetch : String → String → Except String String)
    (jsonParse : String → Except String Json)
    (lister : String → Except String (List BackupObject))
    (backendFor : String → Nat → BatchOutcome) (now : Int)
    (e : String) (nFetch : Nat)
    (hb : envMissing env_bucket = false)
    (hc : envMissing env_config = false)
    (hload : load_retention_config fetch jsonParse (env_config.getD "") =
        (.error e, nFetch)) :
    (lambda_handler env_bucket env_config fetch jsonParse lister backendFor
        now).1 =
      ⟨500, .obj [("error", .str "Internal server error"),
        ("message", .str e)]⟩
    ∧ (lambda_handler env_bucket env_config fetch jsonParse lister backendFor
        now).2.listing = 0
    ∧ (lambda_handler env_bucket env_config fetch jsonParse lister backendFor
        now).2.deletion = 0 := by
  refine ⟨?_, ?_, ?_⟩ <;> simp [lambda_handler, hb, hc, hload]

theorem handler_config_error_500_witness :
    (lambda_handler (some "b") (some "oops") (fun _ _ => .error "f")
        (fun _ => .error "bad json") (fun _ => .ok [])
        (fun _ _ => .ok ⟨[], []⟩) 0).1 =
      ⟨500, .obj [("error", .str "Internal server error"),
        ("message", .str "bad json")]⟩
    ∧ (lambda_handler (some "b") (some "oops") (fun _ _ => .error "f")
        (fun _ => .error "bad json") (fun _ => .ok [])
        (fun _ _ => .ok ⟨[], []⟩) 0).2.listing = 0
    ∧ (lambda_handler (some "b") (some "oops") (fun _ _ => .error "f")
        (fun _ => .error "bad json") (fun _ => .ok [])
        (fun _ _ => .ok ⟨[], []⟩) 0).2.deletion = 0 :=
  handler_config_error_500 (some "b") (some "oops") (fun _ _ => .error "f")
    (fun _ => .error "bad json") (fun _ => .ok [])
    (fun _ _ => .ok ⟨[], []⟩) 0 "bad json" 0 rfl rfl rfl

/-- C8. A configuration document that parses to an object without a
`retention_policies` key yields zero policies, and the handler returns a
200 success response whose body is exactly the
"No retention policies configured" message with an empty results list —
not an error. -/
theorem handler_no_policies_success (env_bucket env_config : Option String)
    (fetch : String → String → Except String String)
    (jsonParse : String → Except String Json)
    (lister : String → Except String (List BackupObject))
    (backendFor : String → Nat → BatchOutcome) (now : Int)
    (fields : List (String × Json))
    (hb : envMissing env_bucket = false)
    (hc : envMissing env_config = false)
    (hs3 : isS3Path (env_config.getD "") = false)
    (hparse : jsonParse (env_config.getD "") = .ok (.obj fields))
    (hnokey : lookupField fields "retention_policies" = none) :
    load_retention_config fetch jsonParse (env_config.getD "") = (.ok [], 0)
    ∧ (lambda_handler env_bucket env_config fetch jsonParse lister backendFor
        now).1 =
      ⟨200, .obj [("message", .str "No retention policies configured"),
        ("results", .arr [])]⟩ := by
  have hload : load_retention_config fetch jsonParse (env_config.getD "") =
      (.ok [], 0) := by
    simp [load_retention_config, hs3, hparse, policiesOfDoc, hnokey]
  exact ⟨hload, by simp [lambda_handler, hb, hc, hload]⟩

theorem handler_no_policies_success_witness :
    load_retention_config (fun _ _ => .error "f")
        (fun _ => .ok (.obj [])) "x" = (.ok [], 0)
    ∧ (lambda_handler (some "b") (some "x") (fun _ _ => .error "f")
        (fun _ => .ok (.obj [])) (fun _ => .ok [])
        (fun _ _ => .ok ⟨[], []⟩) 0).1 =
      ⟨200, .obj [("message", .str "No retention policies configured"),
        ("results", .arr [])]⟩ :=
  handler_no_policies_success (some "b") (some "x") (fun _ _ => .error "f")
    (fun _ => .ok (.obj [])) (fun _ => .ok [])
    (fun _ _ => .ok ⟨[], []⟩) 0 [] rfl rfl rfl rfl rfl

end BackupCleaner
